import Mathlib

/-!
# discord-forom: the GitHub webhook relay and the `github-setup` command

A shallow embedding of `src/app.js`:

* `githubWebhook`   the handler of `app.post('/github-webhook', express.json(), ...)`;
* `interactions`    the handler of `app.post('/interactions', verifyKeyMiddleware(...), ...)`;
* `githubConfigs`   the in-memory registry, a JavaScript object keyed by channel id.

JavaScript values that reach the handlers are parsed JSON.  `JSON` is the type of such
values and `Option JSON` is the type of JavaScript expressions over them, `none` standing
for `undefined`.  Library behaviour the handlers rely on (own-property order of ordinary
objects, `String.prototype.replace`, `Array.prototype.find`, `ToString`, `JSON.stringify`,
`JSON.parse`) is modelled after ECMA-262 and `crypto.createHmac('sha256', key)` after
FIPS 180-4 and RFC 2104; the results of `DiscordRequest` and `getRandomEmoji` are
parameters.
-/

namespace DiscordForom

/-! ## JSON values -/

/-- A parsed JSON value.  `num n` is the integer-valued number `n` (numbers with a fraction
are not represented), a string is a sequence of Unicode scalar values (lone surrogates are
not represented), and an object is the list of its own properties in the order in which
`Object.keys` enumerates them. -/
inductive JSON where
  | null : JSON
  | bool (b : Bool) : JSON
  | num (n : Int) : JSON
  | str (s : String) : JSON
  | arr (items : List JSON) : JSON
  | obj (props : List (String × JSON)) : JSON

/-! ## Ordinary objects: own properties and their order -/

/-- Value of a string of decimal digits, most significant first; `none` when a character
is not a digit. -/
def digitsValue : List Char → Nat → Option Nat
  | [], acc => some acc
  | c :: cs, acc =>
    if c.isDigit then digitsValue cs (acc * 10 + (c.toNat - 48)) else none

/-- The array index a property key denotes, if any: the key is the canonical decimal
form of an integer `i` with `0 ≤ i < 2^32 - 1` (ECMA-262, "array index"). -/
def arrayIndex? (k : String) : Option Nat :=
  match k.toList with
  | [] => none
  | c :: cs =>
    if c = '0' ∧ cs ≠ [] then none
    else
      match digitsValue (c :: cs) 0 with
      | some i => if i < 4294967295 then some i else none
      | none => none

/-- Own property lookup. -/
def getOwn {α : Type} : List (String × α) → String → Option α
  | [], _ => none
  | (k, v) :: rest, key => if k = key then some v else getOwn rest key

/-- Whether an own property with this key exists. -/
def hasOwn {α : Type} : List (String × α) → String → Bool
  | [], _ => false
  | (k, _) :: rest, key => if k = key then true else hasOwn rest key

/-- Overwrite the value of an existing own property; its position is kept. -/
def replaceOwn {α : Type} : List (String × α) → String → α → List (String × α)
  | [], _, _ => []
  | (k, v) :: rest, key, val =>
    if k = key then (k, val) :: rest else (k, v) :: replaceOwn rest key val

/-- Create a new own property whose key is the array index `i`: array-index keys are
enumerated first, in ascending numeric order. -/
def insertIndexed {α : Type} : List (String × α) → String → Nat → α → List (String × α)
  | [], key, _, val => [(key, val)]
  | (k, v) :: rest, key, i, val =>
    match arrayIndex? k with
    | some j => if j < i then (k, v) :: insertIndexed rest key i val
                else (key, val) :: (k, v) :: rest
    | none => (key, val) :: (k, v) :: rest

/-- The assignment `o[key] = val` on an ordinary object (`OrdinaryOwnPropertyKeys` order:
array indices ascending, then the other string keys in creation order). -/
def setOwn {α : Type} (o : List (String × α)) (key : String) (val : α) : List (String × α) :=
  if hasOwn o key then replaceOwn o key val
  else
    match arrayIndex? key with
    | some i => insertIndexed o key i val
    | none => o ++ [(key, val)]

/-- The result of `Object.values(o)`. -/
def objectValues {α : Type} (o : List (String × α)) : List α := o.map Prod.snd

/-- The result of `Object.keys(o)`. -/
def objectKeys {α : Type} (o : List (String × α)) : List String := o.map Prod.fst

/-! ## Operators on values -/

/-- Number of UTF-16 code units of a string (the `length` of a JavaScript string). -/
def utf16Length (s : String) : Nat :=
  (s.toList.map fun c => if c.toNat < 65536 then 1 else 2).sum

/-- The property read `v.name` for a data property, `v` being neither `undefined` nor
`null`: own properties of objects and `length` of arrays and strings.  No other name
the handlers read is defined on `Object.prototype`, `Array.prototype`,
`String.prototype`, `Number.prototype` or `Boolean.prototype`. -/
def getProp : JSON → String → Option JSON
  | .obj props, name => getOwn props name
  | .arr items, name => if name = "length" then some (.num items.length) else none
  | .str s, name => if name = "length" then some (.num (utf16Length s)) else none
  | _, _ => none

/-- Optional chaining `v?.name`. -/
def optChain : Option JSON → String → Option JSON
  | none, _ => none
  | some .null, _ => none
  | some v, name => getProp v name

/-- Strict equality `a === b`.  Two arrays or objects are never equal here: the operands
the handlers compare come from different parsed request bodies. -/
def strictEq : Option JSON → Option JSON → Bool
  | none, none => true
  | some .null, some .null => true
  | some (.bool a), some (.bool b) => a == b
  | some (.num a), some (.num b) => a == b
  | some (.str a), some (.str b) => a == b
  | _, _ => false

/-- The boolean a value converts to (`ToBoolean`). -/
def truthy : Option JSON → Bool
  | none => false
  | some .null => false
  | some (.bool b) => b
  | some (.num n) => n != 0
  | some (.str s) => s != ""
  | some _ => true

mutual
/-- The string a JSON value converts to (`ToString`), `none` when the conversion raises a
TypeError: an object with an own property `toString` has no callable `toString`, and
`Object.prototype.valueOf` returns the object itself. -/
def jsonToString : JSON → Option String
  | .null => some "null"
  | .bool b => some (if b then "true" else "false")
  | .num n => some (toString n)
  | .str s => some s
  | .arr items => (itemStrings items).map (String.intercalate ",")
  | .obj props => if hasOwn props "toString" then none else some "[object Object]"
/-- The strings `Array.prototype.join` joins: `null` elements give the empty string. -/
def itemStrings : List JSON → Option (List String)
  | [] => some []
  | .null :: rest => (itemStrings rest).map ("" :: ·)
  | v :: rest =>
    match jsonToString v, itemStrings rest with
    | some s, some ss => some (s :: ss)
    | _, _ => none
end

/-- The string interpolated for a template-literal hole (`ToString`), `none` when the
conversion raises a TypeError. -/
def toStr : Option JSON → Option String
  | none => some "undefined"
  | some v => jsonToString v

/-- The call `s.replace(pattern, replacement)` with a string pattern and a replacement
free of `$`: the first occurrence of the pattern, wherever it lies, is replaced. -/
def replaceFirst (pattern replacement : List Char) : List Char → List Char
  | [] => if pattern = [] then replacement else []
  | c :: cs =>
    if pattern.isPrefixOf (c :: cs) then replacement ++ (c :: cs).drop pattern.length
    else c :: replaceFirst pattern replacement cs

/-- The method `String.prototype.replace` on Lean strings. -/
def stringReplace (s pattern replacement : String) : String :=
  String.mk (replaceFirst pattern.toList replacement.toList s.toList)

/-! ## `JSON.stringify` -/

/-- A hexadecimal digit, lower case. -/
def hexDigit (n : Nat) : Char :=
  if n < 10 then Char.ofNat (48 + n) else Char.ofNat (87 + n)

/-- The escape of one character inside a JSON string literal (`QuoteJSONString`). -/
def quoteChar (c : Char) : List Char :=
  if c.toNat = 34 then [Char.ofNat 92, Char.ofNat 34]
  else if c.toNat = 92 then [Char.ofNat 92, Char.ofNat 92]
  else if c.toNat = 8 then [Char.ofNat 92, 'b']
  else if c.toNat = 9 then [Char.ofNat 92, 't']
  else if c.toNat = 10 then [Char.ofNat 92, 'n']
  else if c.toNat = 12 then [Char.ofNat 92, 'f']
  else if c.toNat = 13 then [Char.ofNat 92, 'r']
  else if c.toNat < 32 then
    [Char.ofNat 92, 'u', '0', '0', hexDigit (c.toNat / 16), hexDigit (c.toNat % 16)]
  else [c]

/-- A JSON string literal. -/
def quoteString (s : String) : String :=
  String.mk (Char.ofNat 34 :: (s.toList.flatMap quoteChar ++ [Char.ofNat 34]))

mutual
/-- The text `JSON.stringify(v)` of a parsed JSON value (no indentation; no property of a
parsed value is a function, so an own `toJSON` is ignored). -/
def stringify : JSON → String
  | .null => "null"
  | .bool b => if b then "true" else "false"
  | .num n => toString n
  | .str s => quoteString s
  | .arr items => "[" ++ String.intercalate "," (stringifyItems items) ++ "]"
  | .obj props => "\x7b" ++ String.intercalate "," (stringifyProps props) ++ "\x7d"
/-- The serialised elements of an array. -/
def stringifyItems : List JSON → List String
  | [] => []
  | v :: rest => stringify v :: stringifyItems rest
/-- The serialised members of an object. -/
def stringifyProps : List (String × JSON) → List String
  | [] => []
  | (k, v) :: rest => (quoteString k ++ ":" ++ stringify v) :: stringifyProps rest
end

/-! ## `JSON.parse` and `express.json()` -/

/-- JSON white space. -/
def isWhite (c : Char) : Bool :=
  c.toNat = 32 || c.toNat = 9 || c.toNat = 10 || c.toNat = 13

/-- Drop leading white space. -/
def skipWhite : List Char → List Char
  | [] => []
  | c :: cs => if isWhite c then skipWhite cs else c :: cs

/-- Value of a hexadecimal digit. -/
def hexValue (c : Char) : Option Nat :=
  if c.isDigit then some (c.toNat - 48)
  else if 97 ≤ c.toNat ∧ c.toNat ≤ 102 then some (c.toNat - 87)
  else if 65 ≤ c.toNat ∧ c.toNat ≤ 70 then some (c.toNat - 55)
  else none

/-- The code unit of a `\uXXXX` escape; surrogate code units are not represented. -/
def unicodeEscape (a b c d : Char) : Option Char :=
  match hexValue a, hexValue b, hexValue c, hexValue d with
  | some w, some x, some y, some z =>
    let code := ((w * 16 + x) * 16 + y) * 16 + z
    if 55296 ≤ code ∧ code ≤ 57343 then none else some (Char.ofNat code)
  | _, _, _, _ => none

/-- Read a string literal after its opening quote: the string and the rest of the text. -/
def parseStringBody : List Char → List Char → Option (String × List Char)
  | [], _ => none
  | c :: cs, acc =>
    if c.toNat = 34 then some (String.mk acc.reverse, cs)
    else if c.toNat = 92 then
      match cs with
      | 'u' :: w :: x :: y :: z :: rest =>
        match unicodeEscape w x y z with
        | some u => parseStringBody rest (u :: acc)
        | none => none
      | e :: rest =>
        if e.toNat = 34 ∨ e.toNat = 92 ∨ e = '/' then parseStringBody rest (e :: acc)
        else if e = 'b' then parseStringBody rest (Char.ofNat 8 :: acc)
        else if e = 'f' then parseStringBody rest (Char.ofNat 12 :: acc)
        else if e = 'n' then parseStringBody rest (Char.ofNat 10 :: acc)
        else if e = 'r' then parseStringBody rest (Char.ofNat 13 :: acc)
        else if e = 't' then parseStringBody rest (Char.ofNat 9 :: acc)
        else none
      | [] => none
    else if c.toNat < 32 then none
    else parseStringBody cs (c :: acc)

/-- Read an integer literal of at most 2^53 in absolute value.  A literal with a fraction
or an exponent is not represented. -/
def parseInteger (cs : List Char) : Option (Int × List Char) :=
  let (negative, body) :=
    match cs with
    | '-' :: rest => (true, rest)
    | _ => (false, cs)
  let digits := body.takeWhile Char.isDigit
  let rest := body.dropWhile Char.isDigit
  match digits with
  | [] => none
  | d :: ds =>
    if d = '0' ∧ ds ≠ [] then none
    else if rest.head? = some '.' ∨ rest.head? = some 'e' ∨ rest.head? = some 'E' then none
    else
      match digitsValue digits 0 with
      | some n =>
        if n ≤ 9007199254740992 then
          some (if negative then -(n : Int) else (n : Int), rest)
        else none
      | none => none

mutual
/-- Read one JSON value; `fuel` bounds the number of nested calls. -/
def parseValue : Nat → List Char → Option (JSON × List Char)
  | 0, _ => none
  | fuel + 1, cs =>
    match skipWhite cs with
    | 'n' :: 'u' :: 'l' :: 'l' :: rest => some (.null, rest)
    | 't' :: 'r' :: 'u' :: 'e' :: rest => some (.bool true, rest)
    | 'f' :: 'a' :: 'l' :: 's' :: 'e' :: rest => some (.bool false, rest)
    | '[' :: rest =>
      match skipWhite rest with
      | ']' :: rest2 => some (.arr [], rest2)
      | _ => parseElements fuel rest []
    | '\x7b' :: rest =>
      match skipWhite rest with
      | '\x7d' :: rest2 => some (.obj [], rest2)
      | _ => parseMembers fuel rest []
    | c :: rest =>
      if c.toNat = 34 then
        match parseStringBody rest [] with
        | some (s, rest2) => some (.str s, rest2)
        | none => none
      else
        match parseInteger (c :: rest) with
        | some (n, rest2) => some (.num n, rest2)
        | none => none
    | [] => none
/-- Read the elements of an array after `[`; `acc` holds the elements read so far. -/
def parseElements : Nat → List Char → List JSON → Option (JSON × List Char)
  | 0, _, _ => none
  | fuel + 1, cs, acc =>
    match parseValue fuel cs with
    | none => none
    | some (v, rest) =>
      match skipWhite rest with
      | ',' :: rest2 => parseElements fuel rest2 (acc ++ [v])
      | ']' :: rest2 => some (.arr (acc ++ [v]), rest2)
      | _ => none
/-- Read the members of an object after the opening brace; each member is stored with
`setOwn`, so a repeated key keeps its first position and its last value. -/
def parseMembers : Nat → List Char → List (String × JSON) → Option (JSON × List Char)
  | 0, _, _ => none
  | fuel + 1, cs, acc =>
    match skipWhite cs with
    | c :: rest =>
      if c.toNat = 34 then
        match parseStringBody rest [] with
        | none => none
        | some (key, rest2) =>
          match skipWhite rest2 with
          | ':' :: rest3 =>
            match parseValue fuel rest3 with
            | none => none
            | some (v, rest4) =>
              match skipWhite rest4 with
              | ',' :: rest5 => parseMembers fuel rest5 (setOwn acc key v)
              | '\x7d' :: rest5 => some (.obj (setOwn acc key v), rest5)
              | _ => none
          | _ => none
      else none
    | [] => none
end

/-- The value of `JSON.parse(text)` for texts of the represented fragment (integers up to
2^53, no surrogate escapes); `none` for other texts and for malformed ones. -/
def jsonParse (text : String) : Option JSON :=
  match parseValue (2 * text.length + 2) text.toList with
  | some (v, rest) => if skipWhite rest = [] then some v else none
  | none => none

/-- The value `express.json()` leaves in `req.body` for a request of content type
`application/json` with the given body text: `{}` for an empty body, otherwise the parsed
text, which in strict mode must start with a brace or a bracket.  `none` when the
middleware does not hand the request to the handler (or `jsonParse` does not represent
the text). -/
def expressJson (raw : String) : Option JSON :=
  if raw = "" then some (.obj [])
  else
    match skipWhite raw.toList with
    | c :: _ => if c = '\x7b' ∨ c = '[' then jsonParse raw else none
    | [] => none

/-! ## HMAC-SHA256 (`crypto.createHmac('sha256', key)`), after FIPS 180-4 and RFC 2104 -/

/-- The UTF-8 encoding of a character, as bytes. -/
def utf8Bytes (c : Char) : List Nat :=
  let n := c.toNat
  if n < 128 then [n]
  else if n < 2048 then [192 + n / 64, 128 + n % 64]
  else if n < 65536 then [224 + n / 4096, 128 + n / 64 % 64, 128 + n % 64]
  else [240 + n / 262144, 128 + n / 4096 % 64, 128 + n / 64 % 64, 128 + n % 64]

/-- The 64 round constants of SHA-256. -/
def roundConstants : List Nat := [
  0x428a2f98, 0x71374491, 0xb5c0fbcf, 0xe9b5dba5, 0x3956c25b, 0x59f111f1, 0x923f82a4, 0xab1c5ed5,
  0xd807aa98, 0x12835b01, 0x243185be, 0x550c7dc3, 0x72be5d74, 0x80deb1fe, 0x9bdc06a7, 0xc19bf174,
  0xe49b69c1, 0xefbe4786, 0x0fc19dc6, 0x240ca1cc, 0x2de92c6f, 0x4a7484aa, 0x5cb0a9dc, 0x76f988da,
  0x983e5152, 0xa831c66d, 0xb00327c8, 0xbf597fc7, 0xc6e00bf3, 0xd5a79147, 0x06ca6351, 0x14292967,
  0x27b70a85, 0x2e1b2138, 0x4d2c6dfc, 0x53380d13, 0x650a7354, 0x766a0abb, 0x81c2c92e, 0x92722c85,
  0xa2bfe8a1, 0xa81a664b, 0xc24b8b70, 0xc76c51a3, 0xd192e819, 0xd6990624, 0xf40e3585, 0x106aa070,
  0x19a4c116, 0x1e376c08, 0x2748774c, 0x34b0bcb5, 0x391c0cb3, 0x4ed8aa4a, 0x5b9cca4f, 0x682e6ff3,
  0x748f82ee, 0x78a5636f, 0x84c87814, 0x8cc70208, 0x90befffa, 0xa4506ceb, 0xbef9a3f7, 0xc67178f2]

/-- The initial hash value of SHA-256. -/
def initialHash : List Nat :=
  [0x6a09e667, 0xbb67ae85, 0x3c6ef372, 0xa54ff53a, 0x510e527f, 0x9b05688c, 0x1f83d9ab, 0x5be0cd19]

/-- Rotate a 32-bit word right by `n` bits. -/
def rotr (x n : Nat) : Nat := (x >>> n ||| x <<< (32 - n)) % 4294967296

/-- The next `count` words of the message schedule, from the window of the last 16. -/
def schedule : Nat → List Nat → List Nat
  | 0, _ => []
  | count + 1, w =>
    let w1 := w.getD 1 0
    let w14 := w.getD 14 0
    let s0 := rotr w1 7 ^^^ rotr w1 18 ^^^ w1 >>> 3
    let s1 := rotr w14 17 ^^^ rotr w14 19 ^^^ w14 >>> 10
    let next := (w.getD 0 0 + s0 + w.getD 9 0 + s1) % 4294967296
    next :: schedule count (w.drop 1 ++ [next])

/-- One round of the compression function on the working variables `a` to `h`. -/
def shaRound (s : List Nat) (kw : Nat × Nat) : List Nat :=
  match s with
  | [a, b, c, d, e, f, g, h] =>
    let s1 := rotr e 6 ^^^ rotr e 11 ^^^ rotr e 25
    let ch := (e &&& f) ^^^ ((4294967295 - e) &&& g)
    let t1 := (h + s1 + ch + kw.1 + kw.2) % 4294967296
    let s0 := rotr a 2 ^^^ rotr a 13 ^^^ rotr a 22
    let mj := (a &&& b) ^^^ (a &&& c) ^^^ (b &&& c)
    let t2 := (s0 + mj) % 4294967296
    [(t1 + t2) % 4294967296, a, b, c, (d + t1) % 4294967296, e, f, g]
  | _ => s

/-- The compression of one 16-word block into the hash value. -/
def compress (hash block : List Nat) : List Nat :=
  let w := block ++ schedule 48 block
  List.zipWith (fun x y => (x + y) % 4294967296) hash ((roundConstants.zip w).foldl shaRound hash)

/-- Big-endian 32-bit words of a byte string. -/
def wordsOf : List Nat → List Nat
  | a :: b :: c :: d :: rest => (((a * 256 + b) * 256 + c) * 256 + d) :: wordsOf rest
  | _ => []

/-- Cut a word string into blocks of 16 words. -/
def blocksOf : Nat → List Nat → List (List Nat)
  | 0, _ => []
  | count + 1, ws => if ws = [] then [] else ws.take 16 :: blocksOf count (ws.drop 16)

/-- The padded message: a 1 bit, zeros, and the bit length on 64 bits. -/
def pad (msg : List Nat) : List Nat :=
  let bits := msg.length * 8
  msg ++ [128] ++ List.replicate ((119 - msg.length % 64) % 64) 0 ++
    [bits / 2 ^ 56 % 256, bits / 2 ^ 48 % 256, bits / 2 ^ 40 % 256, bits / 2 ^ 32 % 256,
     bits / 2 ^ 24 % 256, bits / 2 ^ 16 % 256, bits / 2 ^ 8 % 256, bits % 256]

/-- The SHA-256 hash of a byte string, as 32 bytes. -/
def sha256 (msg : List Nat) : List Nat :=
  let ws := wordsOf (pad msg)
  ((blocksOf ws.length ws).foldl compress initialHash).flatMap fun w =>
    [w / 16777216 % 256, w / 65536 % 256, w / 256 % 256, w % 256]

/-- The HMAC-SHA256 of a message under a key, as 32 bytes. -/
def hmacSha256 (key msg : List Nat) : List Nat :=
  let k := if key.length > 64 then sha256 key else key
  let k := k ++ List.replicate (64 - k.length) 0
  sha256 (k.map (· ^^^ 92) ++ sha256 (k.map (· ^^^ 54) ++ msg))

/-- The value of `crypto.createHmac('sha256', key).update(text).digest('hex')`. -/
def createHmac (key text : String) : String :=
  String.mk ((hmacSha256 (key.toList.flatMap utf8Bytes) (text.toList.flatMap utf8Bytes)).flatMap
    fun b => [hexDigit (b / 16), hexDigit (b % 16)])

/-! ## The registry `githubConfigs` -/

/-- One entry of `githubConfigs`: the object literal
`{ channelId, pushRoleId, prRoleId, repo }` stored by `github-setup`. -/
structure Rule where
  channelId : Option JSON
  pushRoleId : Option JSON
  prRoleId : Option JSON
  repo : Option JSON

/-- The object `githubConfigs`, keyed by channel id. -/
abbrev Registry := List (String × Rule)

/-- The lookup `Object.values(githubConfigs).find(c => c.repo === repoFullName)`. -/
def findConfig (githubConfigs : Registry) (repoFullName : Option JSON) : Option Rule :=
  (objectValues githubConfigs).find? fun c => strictEq c.repo repoFullName

/-- The part of `process.env` the handlers read. -/
structure Env where
  GITHUB_WEBHOOK_SECRET : Option String
  PUBLIC_URL : Option String

/-- Whether an environment variable is truthy: set and not the empty string. -/
def envTruthy : Option String → Bool
  | none => false
  | some s => s != ""

/-! ## `POST /github-webhook` -/

/-- The request as the handler sees it: the two headers it reads and `req.body` as left by
`express.json()`. -/
structure WebhookRequest where
  signature : Option String
  event : Option String
  body : JSON

/-- One call `DiscordRequest(endpoint, { method: 'POST', body: { content } })`. -/
structure Delivery where
  endpoint : String
  content : String
deriving DecidableEq, Repr

/-- How a run of the webhook handler ends: `res.status(status).send(body)` after the
calls `sent` to `DiscordRequest`, or an uncaught TypeError (no response is sent by the
handler; nothing has been delivered at the points where it can be raised). -/
inductive Outcome where
  | responded (status : Nat) (body : String) (sent : List Delivery) : Outcome
  | threw : Outcome
deriving DecidableEq, Repr

/-- The value of `digest`:
`'sha256=' + hmac.update(JSON.stringify(req.body)).digest('hex')`. -/
def digest (secret : String) (body : JSON) : String :=
  "sha256=" ++ createHmac secret (stringify body)

/-- The guard of lines 34-40: true when the handler answers 401. -/
def signatureRejected (env : Env) (req : WebhookRequest) : Bool :=
  match env.GITHUB_WEBHOOK_SECRET with
  | none => false
  | some secret =>
    if secret != "" then
      decide (req.signature ≠ some (digest secret req.body))
    else false

/-- The value of `branch`: `payload.ref?.replace('refs/heads/', '')`.  The outer `none` is
the TypeError raised when `payload.ref` is neither nullish nor a string (its `replace`
is then not a function). -/
def pushBranch (payload : JSON) : Option (Option JSON) :=
  match getProp payload "ref" with
  | none => some none
  | some .null => some none
  | some (.str ref) => some (some (.str (stringReplace ref "refs/heads/" "")))
  | some _ => none

/-- The value of `commitCount`: `payload.commits?.length || 0`. -/
def commitCount (payload : JSON) : Option JSON :=
  let n := optChain (getProp payload "commits") "length"
  if truthy n then n else some (.num 0)

/-- The push message (lines 56-65); `none` when building it raises a TypeError. -/
def pushMessage (config : Rule) (repoFullName : Option JSON) (payload : JSON) :
    Option String := do
  let branch ← pushBranch payload
  let committer := optChain (getProp payload "pusher") "name"
  let compareUrl := getProp payload "compare"
  let role ← toStr config.pushRoleId
  let repo ← toStr repoFullName
  let branchText ← toStr branch
  let committerText ← toStr committer
  let countText ← toStr (commitCount payload)
  let compareText ← toStr compareUrl
  pure ("<@&" ++ role ++ "> 🚀 **New Push to " ++ repo ++ "**\n" ++
    "**Branch:** " ++ branchText ++ "\n" ++
    "**By:** " ++ committerText ++ "\n" ++
    "**Commits:** " ++ countText ++ "\n" ++
    "**Compare:** " ++ compareText)

/-- The pull-request message (lines 67-76); `none` when building it raises a TypeError. -/
def pullRequestMessage (config : Rule) (repoFullName : Option JSON) (payload : JSON) :
    Option String := do
  let action := getProp payload "action"
  let pr := getProp payload "pull_request"
  let author := optChain (optChain pr "user") "login"
  let title := optChain pr "title"
  let url := optChain pr "html_url"
  let role ← toStr config.prRoleId
  let actionText ← toStr action
  let repo ← toStr repoFullName
  let titleText ← toStr title
  let authorText ← toStr author
  let urlText ← toStr url
  pure ("<@&" ++ role ++ "> 📝 **Pull Request " ++ actionText ++ " on " ++ repo ++ "**\n" ++
    "**Title:** " ++ titleText ++ "\n" ++
    "**By:** " ++ authorText ++ "\n" ++
    "**URL:** " ++ urlText)

/-- The value of `message` after lines 53-77; `none` when a TypeError is raised. -/
def buildMessage (event : Option String) (config : Rule) (repoFullName : Option JSON)
    (payload : JSON) : Option String :=
  if event = some "push" then pushMessage config repoFullName payload
  else if event = some "pull_request" then pullRequestMessage config repoFullName payload
  else some ""

/-- Lines 79-91: the guarded delivery and the final `res.status(200).send('OK')`.
`discordOk` tells whether the promise of `DiscordRequest` resolves; both arms of the
`try`/`catch` only log.  A TypeError raised while the endpoint string is built is caught
by the same `catch`, before any call. -/
def deliver (discordOk : Bool) (config : Rule) (message : String) : Outcome :=
  if message ≠ "" then
    match toStr config.channelId with
    | none => .responded 200 "OK" []
    | some channel =>
      match discordOk with
      | true => .responded 200 "OK" [⟨"channels/" ++ channel ++ "/messages", message⟩]
      | false => .responded 200 "OK" [⟨"channels/" ++ channel ++ "/messages", message⟩]
  else .responded 200 "OK" []

/-- The handler of `POST /github-webhook` (lines 29-92).  It returns the outcome and the
registry it leaves behind. -/
def githubWebhook (discordOk : Bool) (env : Env) (githubConfigs : Registry)
    (req : WebhookRequest) : Outcome × Registry :=
  if signatureRejected env req then
    (.responded 401 "Invalid signature" [], githubConfigs)
  else
    match req.body with
    | .null => (.threw, githubConfigs)
    | payload =>
      let repoFullName := optChain (getProp payload "repository") "full_name"
      match findConfig githubConfigs repoFullName with
      | none => (.responded 200 "No config for this repo" [], githubConfigs)
      | some config =>
        match buildMessage req.event config repoFullName payload with
        | none => (.threw, githubConfigs)
        | some message => (deliver discordOk config message, githubConfigs)

/-! ## `POST /interactions` -/

/-- How a run of the interactions handler ends: `res.status(status).send(body)` (or
`.json(body)`), or an uncaught TypeError. -/
inductive Reply where
  | sent (status : Nat) (body : JSON) : Reply
  | threw : Reply

/-- The call `data.options.find(o => o.name === name)`.  The outer `none` is the TypeError
raised when the callback reads `name` from a `null` element. -/
def findOption (name : String) : List JSON → Option (Option JSON)
  | [] => some none
  | .null :: _ => none
  | o :: rest =>
    if strictEq (getProp o "name") (some (.str name)) then some (some o)
    else findOption name rest

/-- The expression `data.options.find(o => o.name === name).value`.  The outer `none` is a
TypeError: `data.options` is not an array, an element is `null`, or no element has the
name, so that `value` is read from `undefined`. -/
def optionValue (data : JSON) (name : String) : Option (Option JSON) :=
  match getProp data "options" with
  | some (.arr options) =>
    match findOption name options with
    | some (some o) => some (getProp o "value")
    | _ => none
  | _ => none

/-- The value of `webhookUrl` (lines 149-151). -/
def webhookUrl (env : Env) : String :=
  match env.PUBLIC_URL with
  | some url => if url != "" then url ++ "/github-webhook" else "YOUR_SERVER_URL/github-webhook"
  | none => "YOUR_SERVER_URL/github-webhook"

/-- The confirmation text of `github-setup` (lines 156-162); `none` when a TypeError is
raised. -/
def setupContent (env : Env) (repo pushRoleId prRoleId : Option JSON) : Option String := do
  let repoText ← toStr repo
  let pushText ← toStr pushRoleId
  let prText ← toStr prRoleId
  pure ("✅ GitHub notifications configured!\n" ++
    "**Repository:** " ++ repoText ++ "\n" ++
    "**Push notifications:** <@&" ++ pushText ++ ">\n" ++
    "**PR notifications:** <@&" ++ prText ++ ">\n\n" ++
    "**Next step:** Set up a webhook in your GitHub repo pointing to:\n" ++
    "`" ++ webhookUrl env ++ "`\n" ++
    "Select events: `Pushes` and `Pull requests`")

/-- The assignment `githubConfigs[key] = rule` (line 142).  `githubConfigs` inherits from
`Object.prototype`, whose accessor `__proto__` takes an assignment under that key:
the prototype is replaced and no own property is created.  Every other key creates or
overwrites an own property. -/
def assignConfig (githubConfigs : Registry) (key : String) (rule : Rule) : Registry :=
  if key = "__proto__" then githubConfigs else setOwn githubConfigs key rule

/-- The `github-setup` branch (lines 135-166). -/
def githubSetup (env : Env) (githubConfigs : Registry) (body data : JSON) :
    Reply × Registry :=
  let channelId := getProp body "channel_id"
  match optionValue data "push_role" with
  | none => (.threw, githubConfigs)
  | some pushRoleId =>
    match optionValue data "pr_role" with
    | none => (.threw, githubConfigs)
    | some prRoleId =>
      match optionValue data "repo" with
      | none => (.threw, githubConfigs)
      | some repo =>
        match toStr channelId with
        | none => (.threw, githubConfigs)
        | some key =>
          let configs := assignConfig githubConfigs key ⟨channelId, pushRoleId, prRoleId, repo⟩
          match setupContent env repo pushRoleId prRoleId with
          | none => (.threw, configs)
          | some content =>
            (.sent 200 (.obj [("type", .num 4),
              ("data", .obj [("content", .str content), ("flags", .num 64)])]), configs)

/-- The handler of `POST /interactions` (lines 98-174), run on a body that passed
`verifyKeyMiddleware`.  `emoji` is the result of `getRandomEmoji()`.  The constants of the
`discord-interactions` package are inlined: `InteractionType.PING = 1`,
`InteractionType.APPLICATION_COMMAND = 2`, `InteractionResponseType.PONG = 1`,
`InteractionResponseType.CHANNEL_MESSAGE_WITH_SOURCE = 4`,
`InteractionResponseFlags.EPHEMERAL = 64`, `InteractionResponseFlags.IS_COMPONENTS_V2 = 32768`,
`MessageComponentTypes.TEXT_DISPLAY = 10`. -/
def interactions (emoji : String) (env : Env) (githubConfigs : Registry) (body : JSON) :
    Reply × Registry :=
  match body with
  | .null => (.threw, githubConfigs)
  | _ =>
    let type := getProp body "type"
    if strictEq type (some (.num 1)) then
      (.sent 200 (.obj [("type", .num 1)]), githubConfigs)
    else if strictEq type (some (.num 2)) then
      match getProp body "data" with
      | none => (.threw, githubConfigs)
      | some .null => (.threw, githubConfigs)
      | some data =>
        let name := getProp data "name"
        if strictEq name (some (.str "test")) then
          (.sent 200 (.obj [("type", .num 4),
            ("data", .obj [("flags", .num 32768),
              ("components", .arr [.obj [("type", .num 10),
                ("content", .str ("hello world " ++ emoji))]])])]), githubConfigs)
        else if strictEq name (some (.str "github-setup")) then
          githubSetup env githubConfigs body data
        else
          (.sent 400 (.obj [("error", .str "unknown command")]), githubConfigs)
    else
      (.sent 400 (.obj [("error", .str "unknown interaction type")]), githubConfigs)

/-! ## Predicates and sample inputs used in the statements -/

mutual
/-- No object inside the value has an own property named `toString`. -/
def plain : JSON → Bool
  | .arr items => plainItems items
  | .obj props => !hasOwn props "toString" && plainProps props
  | _ => true
/-- All elements of an array are `plain`. -/
def plainItems : List JSON → Bool
  | [] => true
  | v :: rest => plain v && plainItems rest
/-- All property values of an object are `plain`. -/
def plainProps : List (String × JSON) → Bool
  | [] => true
  | (_, v) :: rest => plain v && plainProps rest
end

/-- The value is `undefined` or `plain`. -/
def plainValue : Option JSON → Bool
  | none => true
  | some v => plain v

/-- No element of the option list has the given name. -/
def lacksOption (options : List JSON) (name : String) : Prop :=
  ∀ o ∈ options, strictEq (getProp o "name") (some (.str name)) = false

/-- Every stored rule's `channelId` field is the string it is keyed by. -/
def KeyedByChannel (githubConfigs : Registry) : Prop :=
  ∀ p ∈ githubConfigs, p.2.channelId = some (.str p.1)

/-- An option object `{ name, type, value }` of a command invocation. -/
def commandOption (name : String) (type : Int) (value : String) : JSON :=
  .obj [("name", .str name), ("type", .num type), ("value", .str value)]

/-- The body of a `github-setup` invocation in channel `channel` with the three options of
`GITHUB_SETUP_COMMAND` (`src/commands.js`), in the declared order. -/
def setupInvocation (channel pushRole prRole repo : String) : JSON :=
  .obj [("type", .num 2), ("channel_id", .str channel),
    ("data", .obj [("name", .str "github-setup"),
      ("options", .arr [commandOption "push_role" 8 pushRole, commandOption "pr_role" 8 prRole,
        commandOption "repo" 3 repo])])]

/-- An environment without webhook secret and without public URL. -/
def noSecret : Env := ⟨none, none⟩

/-- The registry after `github-setup` in channel 999 for `acme/widgets` with push role 111
and pull-request role 222, starting from the empty registry. -/
def acmeRegistry : Registry :=
  (interactions "👋" noSecret [] (setupInvocation "999" "111" "222" "acme/widgets")).2

/-- A registry with a rule for `other/repo` in channel 1100000000000000001 and, registered
after it, a rule for `acme/widgets` in channel 1100000000000000002. -/
def twoChannels : Registry :=
  (interactions "👋" noSecret
    (interactions "👋" noSecret []
      (setupInvocation "1100000000000000001" "111" "222" "other/repo")).2
    (setupInvocation "1100000000000000002" "111" "222" "acme/widgets")).2

/-- A push payload for `acme/widgets` with the given `ref`, pushed by `ada`, with two
commits. -/
def acmePush (ref : JSON) : JSON :=
  .obj [("repository", .obj [("full_name", .str "acme/widgets")]), ("ref", ref),
    ("pusher", .obj [("name", .str "ada")]), ("commits", .arr [.obj [], .obj []]),
    ("compare", .str "http://x/compare")]

/-- The compact JSON text of `acmePush (.str "refs/heads/main")`, as `JSON.stringify`
writes it. -/
def compactPushText : String :=
  "\x7b\"repository\":\x7b\"full_name\":\"acme/widgets\"\x7d,\"ref\":\"refs/heads/main\"," ++
  "\"pusher\":\x7b\"name\":\"ada\"\x7d,\"commits\":[\x7b\x7d,\x7b\x7d]," ++
  "\"compare\":\"http://x/compare\"\x7d"

/-- The same payload written with a space after each colon and comma. -/
def spacedPushText : String :=
  "\x7b\"repository\": \x7b\"full_name\": \"acme/widgets\"\x7d, \"ref\": \"refs/heads/main\", " ++
  "\"pusher\": \x7b\"name\": \"ada\"\x7d, \"commits\": [\x7b\x7d, \x7b\x7d], " ++
  "\"compare\": \"http://x/compare\"\x7d"

/-- An environment whose webhook secret is `s3cret`. -/
def withSecret : Env := ⟨some "s3cret", none⟩

set_option maxRecDepth 100000

/-! ## Properties of the object model -/

theorem hasOwn_iff_mem_keys {α : Type} (o : List (String × α)) (key : String) :
    hasOwn o key = true ↔ key ∈ objectKeys o := by
  induction o with
  | nil => simp [hasOwn, objectKeys]
  | cons p rest ih =>
    obtain ⟨k, v⟩ := p
    by_cases h : k = key
    · simp [hasOwn, objectKeys, h]
    · have h2 : ¬ key = k := fun e => h e.symm
      simpa [hasOwn, objectKeys, h, h2] using ih

theorem getOwn_replaceOwn_self {α : Type} (o : List (String × α)) (key : String) (val : α)
    (h : hasOwn o key = true) : getOwn (replaceOwn o key val) key = some val := by
  induction o with
  | nil => simp [hasOwn] at h
  | cons p rest ih =>
    obtain ⟨k, v⟩ := p
    by_cases hk : k = key
    · simp [replaceOwn, getOwn, hk]
    · simp [hasOwn, hk] at h
      simp [replaceOwn, getOwn, hk, ih h]

theorem getOwn_replaceOwn_other {α : Type} (o : List (String × α)) (key other : String) (val : α)
    (h : other ≠ key) : getOwn (replaceOwn o key val) other = getOwn o other := by
  induction o with
  | nil => simp [replaceOwn]
  | cons p rest ih =>
    obtain ⟨k, v⟩ := p
    by_cases hk : k = key
    · have : ¬ key = other := fun e => h e.symm
      simp [replaceOwn, getOwn, hk, this]
    · simp [replaceOwn, getOwn, hk, ih]

theorem getOwn_insertIndexed_self {α : Type} (o : List (String × α)) (key : String) (i : Nat)
    (val : α) (h : hasOwn o key = false) : getOwn (insertIndexed o key i val) key = some val := by
  induction o with
  | nil => simp [insertIndexed, getOwn]
  | cons p rest ih =>
    obtain ⟨k, v⟩ := p
    have hk : ¬ k = key := by
      intro e; simp [hasOwn, e] at h
    simp [hasOwn, hk] at h
    simp only [insertIndexed]
    split
    · split
      · simp [getOwn, hk, ih h]
      · simp [getOwn]
    · simp [getOwn]

theorem getOwn_insertIndexed_other {α : Type} (o : List (String × α)) (key other : String)
    (i : Nat) (val : α) (h : other ≠ key) :
    getOwn (insertIndexed o key i val) other = getOwn o other := by
  have hne : ¬ key = other := fun e => h e.symm
  induction o with
  | nil => simp [insertIndexed, getOwn, hne]
  | cons p rest ih =>
    obtain ⟨k, v⟩ := p
    simp only [insertIndexed]
    split
    · split
      · simp [getOwn, ih]
      · simp [getOwn, hne]
    · simp [getOwn, hne]

theorem getOwn_append_self {α : Type} (o : List (String × α)) (key : String) (val : α)
    (h : hasOwn o key = false) : getOwn (o ++ [(key, val)]) key = some val := by
  induction o with
  | nil => simp [getOwn]
  | cons p rest ih =>
    obtain ⟨k, v⟩ := p
    have hk : ¬ k = key := by
      intro e; simp [hasOwn, e] at h
    simp [hasOwn, hk] at h
    simp [getOwn, hk, ih h]

theorem getOwn_append_other {α : Type} (o : List (String × α)) (key other : String) (val : α)
    (h : other ≠ key) : getOwn (o ++ [(key, val)]) other = getOwn o other := by
  have hne : ¬ key = other := fun e => h e.symm
  induction o with
  | nil => simp [getOwn, hne]
  | cons p rest ih =>
    obtain ⟨k, v⟩ := p
    simp [getOwn, ih]

/-- Reading back the property just assigned. -/
theorem getOwn_setOwn_self {α : Type} (o : List (String × α)) (key : String) (val : α) :
    getOwn (setOwn o key val) key = some val := by
  unfold setOwn
  cases h : hasOwn o key with
  | true => simpa using getOwn_replaceOwn_self o key val h
  | false =>
    simp only [Bool.false_eq_true, if_false]
    split
    · exact getOwn_insertIndexed_self o key _ val h
    · exact getOwn_append_self o key val h

/-- An assignment leaves the other properties alone. -/
theorem getOwn_setOwn_other {α : Type} (o : List (String × α)) (key other : String) (val : α)
    (h : other ≠ key) : getOwn (setOwn o key val) other = getOwn o other := by
  unfold setOwn
  split
  · exact getOwn_replaceOwn_other o key other val h
  · split
    · exact getOwn_insertIndexed_other o key other _ val h
    · exact getOwn_append_other o key other val h

theorem objectKeys_replaceOwn {α : Type} (o : List (String × α)) (key : String) (val : α) :
    objectKeys (replaceOwn o key val) = objectKeys o := by
  induction o with
  | nil => rfl
  | cons p rest ih =>
    obtain ⟨k, v⟩ := p
    by_cases hk : k = key
    · simp [replaceOwn, objectKeys, hk]
    · simpa [replaceOwn, objectKeys, hk] using ih

theorem objectKeys_insertIndexed_perm {α : Type} (o : List (String × α)) (key : String) (i : Nat)
    (val : α) : (objectKeys (insertIndexed o key i val)).Perm (key :: objectKeys o) := by
  induction o with
  | nil => simp [insertIndexed, objectKeys]
  | cons p rest ih =>
    obtain ⟨k, v⟩ := p
    simp only [insertIndexed]
    split
    · split
      · have : (objectKeys ((k, v) :: insertIndexed rest key i val)).Perm
            (k :: key :: objectKeys rest) := by
          simpa [objectKeys] using ih
        exact this.trans (List.Perm.swap key k (objectKeys rest))
      · simp [objectKeys]
    · simp [objectKeys]

/-- The keys after an assignment: the same keys, or the new key added to them. -/
theorem objectKeys_setOwn_perm {α : Type} (o : List (String × α)) (key : String) (val : α) :
    (objectKeys (setOwn o key val)).Perm
      (if hasOwn o key then objectKeys o else key :: objectKeys o) := by
  unfold setOwn
  cases h : hasOwn o key with
  | true => simp [objectKeys_replaceOwn]
  | false =>
    simp only [Bool.false_eq_true, if_false]
    split
    · exact objectKeys_insertIndexed_perm o key _ val
    · simp [objectKeys]

/-- Keys stay pairwise distinct under assignment. -/
theorem nodup_keys_setOwn {α : Type} (o : List (String × α)) (key : String) (val : α)
    (h : (objectKeys o).Nodup) : (objectKeys (setOwn o key val)).Nodup := by
  have hp := objectKeys_setOwn_perm o key val
  cases hk : hasOwn o key with
  | true =>
    rw [hk] at hp
    exact hp.nodup_iff.mpr (by simpa using h)
  | false =>
    rw [hk] at hp
    have hnot : key ∉ objectKeys o := by
      intro hmem
      have := (hasOwn_iff_mem_keys o key).mpr hmem
      simp [hk] at this
    exact hp.nodup_iff.mpr (by simpa using List.nodup_cons.mpr ⟨hnot, h⟩)

theorem mem_replaceOwn {α : Type} (o : List (String × α)) (key : String) (val : α)
    (p : String × α) (h : p ∈ replaceOwn o key val) : p = (key, val) ∨ p ∈ o := by
  induction o with
  | nil => simp [replaceOwn] at h
  | cons q rest ih =>
    obtain ⟨k, v⟩ := q
    by_cases hk : k = key
    · simp [replaceOwn, hk] at h
      rcases h with h | h
      · exact Or.inl h
      · exact Or.inr (List.mem_cons_of_mem _ h)
    · simp [replaceOwn, hk] at h
      rcases h with h | h
      · exact Or.inr (by simp [h])
      · rcases ih h with h2 | h2
        · exact Or.inl h2
        · exact Or.inr (List.mem_cons_of_mem _ h2)

theorem mem_insertIndexed {α : Type} (o : List (String × α)) (key : String) (i : Nat) (val : α)
    (p : String × α) (h : p ∈ insertIndexed o key i val) : p = (key, val) ∨ p ∈ o := by
  induction o with
  | nil => simpa [insertIndexed] using h
  | cons q rest ih =>
    obtain ⟨k, v⟩ := q
    simp only [insertIndexed] at h
    split at h
    · split at h
      · simp only [List.mem_cons] at h
        rcases h with h | h
        · exact Or.inr (by simp [h])
        · rcases ih h with h2 | h2
          · exact Or.inl h2
          · exact Or.inr (List.mem_cons_of_mem _ h2)
      · simpa using h
    · simpa using h

/-- Every property after an assignment is the assigned one or was there before. -/
theorem mem_setOwn {α : Type} (o : List (String × α)) (key : String) (val : α)
    (p : String × α) (h : p ∈ setOwn o key val) : p = (key, val) ∨ p ∈ o := by
  unfold setOwn at h
  split at h
  · exact mem_replaceOwn o key val p h
  · split at h
    · exact mem_insertIndexed o key _ val p h
    · simp only [List.mem_append, List.mem_singleton] at h
      exact h.symm

/-! ## Properties of the handlers -/

/-- The callback of `find` selects the only element with the wanted name. -/
theorem findOption_of_unique (name : String) (o : JSON) (options : List JSON)
    (hmem : o ∈ options) (hname : getProp o "name" = some (.str name))
    (hothers : ∀ x ∈ options, x ≠ .null ∧
      (strictEq (getProp x "name") (some (.str name)) = true → x = o)) :
    findOption name options = some (some o) := by
  induction options with
  | nil => simp at hmem
  | cons x rest ih =>
    have hx := hothers x (List.mem_cons_self x rest)
    by_cases hsel : strictEq (getProp x "name") (some (.str name)) = true
    · have hxo := hx.2 hsel
      subst hxo
      cases x <;> simp_all [findOption]
    · have hne : x ≠ o := by
        intro e
        subst e
        simp [hname, strictEq] at hsel
      have hrest : o ∈ rest := by
        rcases List.mem_cons.mp hmem with h | h
        · exact absurd h.symm hne
        · exact h
      have ih2 := ih hrest fun y hy => hothers y (List.mem_cons_of_mem x hy)
      cases x <;> simp_all [findOption]

theorem optionValue_of_perm (data o1 o2 o3 : JSON) (options : List JSON)
    (n1 n2 n3 : String) (v : Option JSON)
    (hoptions : getProp data "options" = some (.arr options))
    (hperm : options.Perm [o1, o2, o3])
    (h1 : getProp o1 "name" = some (.str n1)) (h2 : getProp o2 "name" = some (.str n2))
    (h3 : getProp o3 "name" = some (.str n3)) (h12 : n2 ≠ n1) (h13 : n3 ≠ n1)
    (hv : getProp o1 "value" = v) :
    optionValue data n1 = some v := by
  have hfind : findOption n1 options = some (some o1) := by
    apply findOption_of_unique n1 o1 options (hperm.mem_iff.mpr (by simp)) h1
    intro x hx
    have hx3 : x = o1 ∨ x = o2 ∨ x = o3 := by simpa using hperm.mem_iff.mp hx
    rcases hx3 with e | e | e
    · subst e
      exact ⟨fun hn => by simp [hn, getProp] at h1, fun _ => rfl⟩
    · subst e
      refine ⟨fun hn => by simp [hn, getProp] at h2, fun hs => ?_⟩
      simp [h2, strictEq, h12] at hs
    · subst e
      refine ⟨fun hn => by simp [hn, getProp] at h3, fun hs => ?_⟩
      simp [h3, strictEq, h13] at hs
  simp [optionValue, hoptions, hfind, hv]


theorem hasOwn_of_getOwn {α : Type} (o : List (String × α)) (key : String) (val : α)
    (h : getOwn o key = some val) : hasOwn o key = true := by
  induction o with
  | nil => simp [getOwn] at h
  | cons p rest ih =>
    obtain ⟨k, v⟩ := p
    by_cases hk : k = key
    · simp [hasOwn, hk]
    · simp [getOwn, hk] at h
      simp [hasOwn, hk, ih h]

theorem toStr_str (s : String) : toStr (some (.str s)) = some s := rfl

/-- What `interactions` does on a `github-setup` invocation. -/
theorem interactions_setup (emoji : String) (env : Env) (githubConfigs : Registry)
    (body data : JSON)
    (htype : getProp body "type" = some (.num 2))
    (hdata : getProp body "data" = some data)
    (hname : getProp data "name" = some (.str "github-setup")) :
    interactions emoji env githubConfigs body = githubSetup env githubConfigs body data := by
  have hbody : body ≠ .null := fun e => by simp [e, getProp] at htype
  have hd : data ≠ .null := fun e => by simp [e, getProp] at hname
  unfold interactions
  cases body <;> first | exact absurd rfl hbody | skip
  all_goals (cases data <;> first | exact absurd rfl hd | skip)
  all_goals simp_all [strictEq]

theorem parseElements_arr (fuel : Nat) : ∀ (cs : List Char) (acc : List JSON) (v : JSON)
    (rest : List Char), parseElements fuel cs acc = some (v, rest) → ∃ items, v = .arr items := by
  induction fuel with
  | zero => intro cs acc v rest h; simp [parseElements] at h
  | succ n ih =>
    intro cs acc v rest h
    unfold parseElements at h
    split at h
    · simp at h
    · split at h
      · exact ih _ _ _ _ h
      · simp only [Option.some.injEq, Prod.mk.injEq] at h
        exact ⟨_, h.1.symm⟩
      · simp at h

theorem parseMembers_obj (fuel : Nat) : ∀ (cs : List Char) (acc : List (String × JSON))
    (v : JSON) (rest : List Char), parseMembers fuel cs acc = some (v, rest) →
    ∃ props, v = .obj props := by
  induction fuel with
  | zero => intro cs acc v rest h; simp [parseMembers] at h
  | succ n ih =>
    intro cs acc v rest h
    unfold parseMembers at h
    split at h
    · split_ifs at h
      split at h
      · simp at h
      · split at h
        · split at h
          · simp at h
          · split at h
            · exact ih _ _ _ _ h
            · simp only [Option.some.injEq, Prod.mk.injEq] at h
              exact ⟨_, h.1.symm⟩
            · simp at h
        · simp at h
    · simp at h

/-- What `express.json()` hands to the handler is an object or an array. -/
theorem expressJson_object_or_array (raw : String) (body : JSON)
    (h : expressJson raw = some body) :
    (∃ props, body = .obj props) ∨ ∃ items, body = .arr items := by
  unfold expressJson at h
  split_ifs at h with hempty
  · simp only [Option.some.injEq] at h
    exact Or.inl ⟨_, h.symm⟩
  · split at h
    · rename_i c t hskip
      split_ifs at h with hc
      unfold jsonParse at h
      split at h
      · rename_i v rest hparse
        split_ifs at h
        simp only [Option.some.injEq] at h
        subst h
        have hfuel : 2 * raw.length + 2 = (2 * raw.length + 1) + 1 := rfl
        rw [hfuel] at hparse
        unfold parseValue at hparse
        rw [hskip] at hparse
        rcases hc with hc | hc
        · subst hc
          simp only at hparse
          split at hparse
          · simp only [Option.some.injEq, Prod.mk.injEq] at hparse
            exact Or.inl ⟨_, hparse.1.symm⟩
          · exact Or.inl (parseMembers_obj _ _ _ _ _ hparse)
        · subst hc
          simp only at hparse
          split at hparse
          · simp only [Option.some.injEq, Prod.mk.injEq] at hparse
            exact Or.inr ⟨_, hparse.1.symm⟩
          · exact Or.inr (parseElements_arr _ _ _ _ _ hparse)
      · simp at h
    · simp at h

/-- The `github-setup` branch leaves the registry as it was or assigns one rule under the
string of `channel_id`. -/
theorem githubSetup_registry (env : Env) (githubConfigs : Registry) (body data : JSON) :
    (githubSetup env githubConfigs body data).2 = githubConfigs ∨
      ∃ key rule, toStr (getProp body "channel_id") = some key ∧
        (githubSetup env githubConfigs body data).2 = setOwn githubConfigs key rule := by
  unfold githubSetup
  dsimp only
  cases optionValue data "push_role" with
  | none => exact Or.inl rfl
  | some a =>
    cases optionValue data "pr_role" with
    | none => exact Or.inl rfl
    | some b =>
      cases optionValue data "repo" with
      | none => exact Or.inl rfl
      | some c =>
        cases toStr (getProp body "channel_id") with
        | none => exact Or.inl rfl
        | some key =>
          dsimp only
          by_cases hkey : key = "__proto__"
          · left
            cases setupContent env c a b <;> simp [assignConfig, hkey]
          · right
            refine ⟨key, ⟨getProp body "channel_id", a, b, c⟩, rfl, ?_⟩
            cases setupContent env c a b <;> simp [assignConfig, hkey]

/-- The interactions handler leaves the registry as it was or assigns one rule under the
string of `channel_id`. -/
theorem interactions_registry (emoji : String) (env : Env) (githubConfigs : Registry)
    (body : JSON) :
    (interactions emoji env githubConfigs body).2 = githubConfigs ∨
      ∃ key rule, toStr (getProp body "channel_id") = some key ∧
        (interactions emoji env githubConfigs body).2 = setOwn githubConfigs key rule := by
  unfold interactions
  split
  · exact Or.inl rfl
  · dsimp only
    split_ifs
    · exact Or.inl rfl
    · split
      · exact Or.inl rfl
      · exact Or.inl rfl
      · split_ifs
        · exact Or.inl rfl
        · exact githubSetup_registry _ _ _ _
        · exact Or.inl rfl
    · exact Or.inl rfl

/-- A new key that is not an array index is enumerated last. -/
theorem setOwn_fresh {α : Type} (o : List (String × α)) (key : String) (val : α)
    (hfresh : hasOwn o key = false) (hindex : arrayIndex? key = none) :
    setOwn o key val = o ++ [(key, val)] := by
  simp [setOwn, hfresh, hindex]

theorem findConfig_append (githubConfigs : Registry) (key : String) (rule found : Rule)
    (repo : Option JSON) (h : findConfig githubConfigs repo = some found) :
    findConfig (githubConfigs ++ [(key, rule)]) repo = some found := by
  unfold findConfig objectValues at *
  rw [List.map_append, List.find?_append, h]
  rfl

/-- Without an element of the wanted name, `find` raises or returns `undefined`. -/
theorem findOption_lacks (name : String) (options : List JSON)
    (h : lacksOption options name) :
    findOption name options = none ∨ findOption name options = some none := by
  induction options with
  | nil => exact Or.inr rfl
  | cons x rest ih =>
    have hx := h x (List.mem_cons_self x rest)
    have hrest : lacksOption rest name := fun y hy => h y (List.mem_cons_of_mem x hy)
    cases x <;> simp_all [findOption]

/-- Reading `.value` of a missing option raises a TypeError. -/
theorem optionValue_lacks (data : JSON) (name : String)
    (h : ∀ options, getProp data "options" = some (.arr options) → lacksOption options name) :
    optionValue data name = none := by
  unfold optionValue
  split
  · rename_i options heq
    rcases findOption_lacks name options (h options heq) with h1 | h1 <;> simp [h1]
  · rfl

/-- The guarded delivery always ends in `200 OK`. -/
theorem deliver_ok (discordOk : Bool) (config : Rule) (message : String) :
    ∃ sent, deliver discordOk config message = .responded 200 "OK" sent := by
  unfold deliver
  split_ifs
  · split
    · exact ⟨_, rfl⟩
    · cases discordOk <;> exact ⟨_, rfl⟩
  · exact ⟨_, rfl⟩

/-- Without a truthy secret the guard never rejects. -/
theorem signatureRejected_of_no_secret (env : Env) (req : WebhookRequest)
    (h : envTruthy env.GITHUB_WEBHOOK_SECRET = false) : signatureRejected env req = false := by
  unfold signatureRejected
  cases hs : env.GITHUB_WEBHOOK_SECRET with
  | none => rfl
  | some secret =>
    rw [hs] at h
    simp [envTruthy] at h
    simp [h]

/-- With a truthy secret, a request whose signature header is absent or differs from the
digest recomputed over `JSON.stringify(req.body)` is answered 401 before the registry is
read or anything is delivered. -/
theorem githubWebhook_of_rejected (discordOk : Bool) (secret : String) (publicUrl : Option String)
    (githubConfigs : Registry) (req : WebhookRequest) (hsecret : secret ≠ "")
    (hsignature : req.signature ≠ some (digest secret req.body)) :
    githubWebhook discordOk ⟨some secret, publicUrl⟩ githubConfigs req =
      (.responded 401 "Invalid signature" [], githubConfigs) := by
  simp [githubWebhook, signatureRejected, hsecret, hsignature]

/-- Past the guard the handler does not look at the signature header. -/
theorem githubWebhook_of_accepted (discordOk : Bool) (env : Env) (githubConfigs : Registry)
    (req : WebhookRequest) (h : signatureRejected env req = false) :
    githubWebhook discordOk env githubConfigs req =
      match req.body with
      | .null => (.threw, githubConfigs)
      | payload =>
        match findConfig githubConfigs (optChain (getProp payload "repository") "full_name") with
        | none => (.responded 200 "No config for this repo" [], githubConfigs)
        | some config =>
          match buildMessage req.event config
              (optChain (getProp payload "repository") "full_name") payload with
          | none => (.threw, githubConfigs)
          | some message => (deliver discordOk config message, githubConfigs) := by
  unfold githubWebhook
  simp only [h, Bool.false_eq_true, if_false]

/-- Past the guard no run answers 401. -/
theorem githubWebhook_not_401 (discordOk : Bool) (env : Env) (githubConfigs : Registry)
    (req : WebhookRequest) (h : signatureRejected env req = false) (text : String)
    (sent : List Delivery) :
    (githubWebhook discordOk env githubConfigs req).1 ≠ .responded 401 text sent := by
  rw [githubWebhook_of_accepted discordOk env githubConfigs req h]
  split
  · simp
  · split
    · simp
    · split
      · simp
      · rename_i config _ _ message _
        obtain ⟨s, hs⟩ := deliver_ok discordOk config message
        simp [hs]

theorem findConfig_some (githubConfigs : Registry) (repo : Option JSON) (config : Rule)
    (h : findConfig githubConfigs repo = some config) :
    config ∈ objectValues githubConfigs ∧ strictEq config.repo repo = true := by
  unfold findConfig at h
  exact ⟨List.mem_of_find?_eq_some h, by simpa using List.find?_some h⟩

mutual
/-- Conversion to a string does not raise on a `plain` value. -/
theorem jsonToString_plain : ∀ v : JSON, plain v = true → ∃ s, jsonToString v = some s
  | .null, _ => ⟨_, rfl⟩
  | .bool _, _ => ⟨_, rfl⟩
  | .num _, _ => ⟨_, rfl⟩
  | .str _, _ => ⟨_, rfl⟩
  | .arr items, h => by
    obtain ⟨ss, hss⟩ := itemStrings_plain items (by simpa [plain] using h)
    simp only [jsonToString, hss, Option.map_some']
    exact ⟨_, rfl⟩
  | .obj props, h => by
    have hno : hasOwn props "toString" = false := by
      simp [plain] at h
      exact h.1
    simp only [jsonToString, hno]
    exact ⟨_, rfl⟩
/-- Conversion of the elements does not raise on `plain` elements. -/
theorem itemStrings_plain : ∀ items : List JSON, plainItems items = true →
    ∃ ss, itemStrings items = some ss
  | [], _ => ⟨_, rfl⟩
  | v :: rest, h => by
    have hv : plain v = true ∧ plainItems rest = true := by simpa [plainItems] using h
    obtain ⟨s, hs⟩ := jsonToString_plain v hv.1
    obtain ⟨ss, hss⟩ := itemStrings_plain rest hv.2
    cases v <;> simp_all [itemStrings]
end

theorem toStr_plain (v : Option JSON) (h : plainValue v = true) : ∃ s, toStr v = some s := by
  cases v with
  | none => exact ⟨_, rfl⟩
  | some j => exact jsonToString_plain j h

theorem getOwn_plain (props : List (String × JSON)) (name : String)
    (h : plainProps props = true) : plainValue (getOwn props name) = true := by
  induction props with
  | nil => rfl
  | cons q rest ih =>
    obtain ⟨k, v⟩ := q
    have hv : plain v = true ∧ plainProps rest = true := by simpa [plainProps] using h
    by_cases hk : k = name
    · simp [getOwn, hk, plainValue, hv.1]
    · simp [getOwn, hk, ih hv.2]

theorem getProp_plain (v : JSON) (name : String) (h : plain v = true) :
    plainValue (getProp v name) = true := by
  cases v with
  | obj props =>
    have hp : plainProps props = true := by
      simp [plain] at h
      exact h.2
    exact getOwn_plain props name hp
  | arr items => simp only [getProp]; split_ifs <;> rfl
  | str s => simp only [getProp]; split_ifs <;> rfl
  | null => rfl
  | bool b => rfl
  | num n => rfl

theorem optChain_plain (v : Option JSON) (name : String) (h : plainValue v = true) :
    plainValue (optChain v name) = true := by
  cases v with
  | none => rfl
  | some j =>
    cases j with
    | null => rfl
    | bool b => exact getProp_plain _ name h
    | num n => exact getProp_plain _ name h
    | str s => exact getProp_plain _ name h
    | arr items => exact getProp_plain _ name h
    | obj props => exact getProp_plain _ name h

theorem commitCount_plain (payload : JSON) (h : plain payload = true) :
    plainValue (commitCount payload) = true := by
  unfold commitCount
  dsimp only
  split_ifs
  · exact optChain_plain _ _ (getProp_plain _ _ h)
  · rfl

/-- The push message is built without raising when `ref` is nullish or a string and the
interpolated values are `plain`. -/
theorem pushMessage_some (config : Rule) (repoFullName : Option JSON) (payload : JSON)
    (href : getProp payload "ref" = none ∨ getProp payload "ref" = some .null ∨
      ∃ s, getProp payload "ref" = some (.str s))
    (hplain : plain payload = true) (hrepo : plainValue repoFullName = true)
    (hrole : plainValue config.pushRoleId = true) :
    ∃ message, pushMessage config repoFullName payload = some message := by
  obtain ⟨branch, hb, hbp⟩ : ∃ branch, pushBranch payload = some branch ∧
      plainValue branch = true := by
    unfold pushBranch
    rcases href with h | h | ⟨s, h⟩ <;> rw [h] <;> exact ⟨_, rfl, rfl⟩
  obtain ⟨s1, h1⟩ := toStr_plain _ hrole
  obtain ⟨s2, h2⟩ := toStr_plain _ hrepo
  obtain ⟨s3, h3⟩ := toStr_plain _ hbp
  obtain ⟨s4, h4⟩ := toStr_plain _
    (optChain_plain _ "name" (getProp_plain payload "pusher" hplain))
  obtain ⟨s5, h5⟩ := toStr_plain _ (commitCount_plain payload hplain)
  obtain ⟨s6, h6⟩ := toStr_plain _ (getProp_plain payload "compare" hplain)
  simp only [pushMessage, hb, h1, h2, h3, h4, h5, h6, Option.bind_eq_bind,
    Option.some_bind, Option.pure_def]
  exact ⟨_, rfl⟩

/-- The pull-request message is built without raising when the interpolated values are
`plain`. -/
theorem pullRequestMessage_some (config : Rule) (repoFullName : Option JSON) (payload : JSON)
    (hplain : plain payload = true) (hrepo : plainValue repoFullName = true)
    (hrole : plainValue config.prRoleId = true) :
    ∃ message, pullRequestMessage config repoFullName payload = some message := by
  have hpr := getProp_plain payload "pull_request" hplain
  obtain ⟨s1, h1⟩ := toStr_plain _ hrole
  obtain ⟨s2, h2⟩ := toStr_plain _ (getProp_plain payload "action" hplain)
  obtain ⟨s3, h3⟩ := toStr_plain _ hrepo
  obtain ⟨s4, h4⟩ := toStr_plain _ (optChain_plain _ "title" hpr)
  obtain ⟨s5, h5⟩ := toStr_plain _ (optChain_plain _ "login" (optChain_plain _ "user" hpr))
  obtain ⟨s6, h6⟩ := toStr_plain _ (optChain_plain _ "html_url" hpr)
  simp only [pullRequestMessage, h1, h2, h3, h4, h5, h6, Option.bind_eq_bind,
    Option.some_bind, Option.pure_def]
  exact ⟨_, rfl⟩

/-- The model of `createHmac` reproduces test case 2 of RFC 4231. -/
theorem createHmac_rfc4231_case2 :
    createHmac "Jefe" "what do ya want for nothing?" =
      "5bdcc146bf60754e6a042426089575c75a003f089d2739839dec58b964ec3843" := by
  decide

/-- The digests of the two sample texts under the secret `s3cret`. -/
theorem sample_digests :
    createHmac "s3cret" compactPushText =
        "8927c6fa9aea65f1eb7b5b304b4dc169740d7269eebd4b6a3aae9a64a3ca3cbe" ∧
      createHmac "s3cret" spacedPushText =
        "0d1f6849b84b3edb435daf127ccb4207ef8213c1a2e3c012cd182e4db8199db5" := by
  decide

/-- The compact text is the `JSON.stringify` of the sample push and both texts parse to
it. -/
theorem sample_texts :
    stringify (acmePush (.str "refs/heads/main")) = compactPushText ∧
      expressJson compactPushText = some (acmePush (.str "refs/heads/main")) ∧
      expressJson spacedPushText = some (acmePush (.str "refs/heads/main")) :=
  ⟨by decide, rfl, rfl⟩

/-! ## The claims -/

/-! ### C1: a tampered body must be answered 401 -/

/-- Claim C1, evaluated at a failing input.  The sender signs the compact text of a push
under the secret `s3cret`; on the way the body is rewritten with a space after each colon and
comma and the signature header is left as it was.  The header is then not the HMAC-SHA256 of
the body that arrives, yet the handler does not answer 401: it recomputes the digest over
`JSON.stringify(req.body)`, which is the compact text again, accepts the request and calls
`DiscordRequest`. -/
theorem tampered_body_is_accepted :
    spacedPushText ≠ compactPushText ∧
      expressJson spacedPushText = some (acmePush (.str "refs/heads/main")) ∧
      "sha256=" ++ createHmac "s3cret" compactPushText ≠
        "sha256=" ++ createHmac "s3cret" spacedPushText ∧
      (githubWebhook true withSecret acmeRegistry
        ⟨some ("sha256=" ++ createHmac "s3cret" compactPushText), some "push",
          acmePush (.str "refs/heads/main")⟩).1 =
        .responded 200 "OK" [⟨"channels/999/messages",
          "<@&111> 🚀 **New Push to acme/widgets**\n**Branch:** main\n**By:** ada\n" ++
          "**Commits:** 2\n**Compare:** http://x/compare"⟩] :=
  ⟨by decide, rfl, by decide, by decide⟩

/-! ### C2: verification over the raw body bytes -/

/-- Claim C2, evaluated at a failing input.  A sender posts the spaced text of a push and
signs exactly these bytes under the secret `s3cret`.  The handler computes its digest over
`JSON.stringify(req.body)`, not over the bytes received, and answers 401 to the correctly
signed request. -/
theorem signed_raw_body_is_rejected :
    expressJson spacedPushText = some (acmePush (.str "refs/heads/main")) ∧
      (githubWebhook true withSecret acmeRegistry
        ⟨some ("sha256=" ++ createHmac "s3cret" spacedPushText), some "push",
          acmePush (.str "refs/heads/main")⟩).1 =
        .responded 401 "Invalid signature" [] :=
  ⟨rfl, by decide⟩

/-! ### C3: no secret, no verification -/

/-- Claim C3.  When `GITHUB_WEBHOOK_SECRET` is unset or empty, the run of the webhook handler
(outcome, calls to `DiscordRequest`, registry) is the same for any two values of the
`x-hub-signature-256` header, absent or present, and its response is never 401; this
holds for every event header, body and registry. -/
theorem no_secret_ignores_signature (discordOk : Bool) (env : Env) (githubConfigs : Registry)
    (event : Option String) (body : JSON) (signature1 signature2 : Option String)
    (hsecret : envTruthy env.GITHUB_WEBHOOK_SECRET = false) :
    githubWebhook discordOk env githubConfigs ⟨signature1, event, body⟩ =
        githubWebhook discordOk env githubConfigs ⟨signature2, event, body⟩ ∧
      ∀ text sent, (githubWebhook discordOk env githubConfigs ⟨signature1, event, body⟩).1 ≠
        .responded 401 text sent := by
  have h1 := signatureRejected_of_no_secret env ⟨signature1, event, body⟩ hsecret
  have h2 := signatureRejected_of_no_secret env ⟨signature2, event, body⟩ hsecret
  refine ⟨?_, fun text sent => githubWebhook_not_401 discordOk env githubConfigs _ h1 text sent⟩
  rw [githubWebhook_of_accepted _ _ _ _ h1, githubWebhook_of_accepted _ _ _ _ h2]

/-- Claim C3 on the sample push: without secret, the run without signature header equals the
run with the header `sha256=00`, and neither is answered 401. -/
theorem no_secret_ignores_signature_witness :
    githubWebhook true noSecret acmeRegistry ⟨none, some "push", acmePush (.str "refs/heads/main")⟩ =
        githubWebhook true noSecret acmeRegistry
          ⟨some "sha256=00", some "push", acmePush (.str "refs/heads/main")⟩ ∧
      ∀ text sent, (githubWebhook true noSecret acmeRegistry
          ⟨none, some "push", acmePush (.str "refs/heads/main")⟩).1 ≠ .responded 401 text sent :=
  no_secret_ignores_signature true noSecret acmeRegistry (some "push")
    (acmePush (.str "refs/heads/main")) none (some "sha256=00") rfl

/-! ### C4: content of the push notification -/

/-- Claim C5 fails as stated.  (1) With the rule for `acme/widgets` registered in channel
`999`, registering the same repository in channel `5` makes the lookup return the rule of
channel `5`: the keys `999` and `5` are array indices and `Object.values` enumerates them
in ascending numeric order.  (2) With channel ids that are not array indices: channel
`1100000000000000001` holds a rule for `other/repo` and channel `1100000000000000002` the
rule for `acme/widgets`; registering `acme/widgets` on the first channel overwrites its
rule in place, ahead of the second, and the lookup now returns the first channel's rule. -/
theorem lookup_follows_enumeration_order :
    (findConfig acmeRegistry (some (.str "acme/widgets"))).bind (fun c => toStr c.channelId)
        = some "999" ∧
      (findConfig (interactions "👋" noSecret acmeRegistry
          (setupInvocation "5" "333" "444" "acme/widgets")).2
        (some (.str "acme/widgets"))).bind (fun c => toStr c.channelId) = some "5" ∧
      (findConfig twoChannels (some (.str "acme/widgets"))).bind (fun c => toStr c.channelId)
        = some "1100000000000000002" ∧
      (findConfig (interactions "👋" noSecret twoChannels
          (setupInvocation "1100000000000000001" "333" "444" "acme/widgets")).2
        (some (.str "acme/widgets"))).bind (fun c => toStr c.channelId)
        = some "1100000000000000001" := by
  decide

/-- Claim C5, amended.  If the lookup for a repository returns `rule1` and a command
invocation then arrives from a channel `c2` that has no rule yet and whose id is not an
array index (a decimal integer below 2^32 - 1), then whatever the invocation registers,
the lookup for that repository still returns `rule1`. -/
theorem lookup_kept_for_fresh_channel (emoji : String) (env : Env) (githubConfigs : Registry)
    (body : JSON) (c2 : String) (repo : Option JSON) (rule1 : Rule)
    (hchannel : getProp body "channel_id" = some (.str c2))
    (hfresh : hasOwn githubConfigs c2 = false)
    (hindex : arrayIndex? c2 = none)
    (hfound : findConfig githubConfigs repo = some rule1) :
    findConfig (interactions emoji env githubConfigs body).2 repo = some rule1 := by
  rcases interactions_registry emoji env githubConfigs body with h | ⟨key, rule, hkey, h⟩
  · rw [h]; exact hfound
  · rw [h]
    rw [hchannel] at hkey
    have : key = c2 := by
      simp [toStr, jsonToString] at hkey
      exact hkey.symm
    subst this
    rw [setOwn_fresh _ _ _ hfresh hindex]
    exact findConfig_append _ _ _ _ _ hfound

/-- Claim C5, amended, on two channels with ids of the size Discord assigns: the rule for
`acme/widgets` registered first is still the one found after the second registration. -/
theorem lookup_kept_for_fresh_channel_witness :
    findConfig (interactions "👋" noSecret
        (interactions "👋" noSecret [] (setupInvocation "1100000000000000001" "111" "222" "acme/widgets")).2
        (setupInvocation "1100000000000000002" "333" "444" "acme/widgets")).2 (some (.str "acme/widgets"))
      = some ⟨some (.str "1100000000000000001"), some (.str "111"), some (.str "222"),
          some (.str "acme/widgets")⟩ :=
  lookup_kept_for_fresh_channel "👋" noSecret _ _ "1100000000000000002" _ _ rfl (by decide)
    (by decide) rfl

/-! ### C6: `github-setup` without a required option -/

/-- Claim C6 fails as stated.  A `github-setup` invocation with the options `push_role` and
`pr_role` but without `repo` makes the handler raise a TypeError (`value` is read from
`undefined`); no response with status 400 is sent. -/
theorem setup_without_repo_is_not_answered_400 :
    interactions "👋" noSecret []
        (.obj [("type", .num 2), ("channel_id", .str "999"),
          ("data", .obj [("name", .str "github-setup"),
            ("options", .arr [commandOption "push_role" 8 "111",
              commandOption "pr_role" 8 "222"])])])
      = (.threw, []) ∧
      ¬ ∃ answer, (interactions "👋" noSecret []
        (.obj [("type", .num 2), ("channel_id", .str "999"),
          ("data", .obj [("name", .str "github-setup"),
            ("options", .arr [commandOption "push_role" 8 "111",
              commandOption "pr_role" 8 "222"])])])).1 = .sent 400 answer :=
  ⟨rfl, fun ⟨_, h⟩ => Reply.noConfusion h⟩

/-- Claim C6, amended.  For every `github-setup` invocation in which one of the names
`push_role`, `pr_role`, `repo` is carried by no element of `data.options` (or
`data.options` is not an array at all), the handler raises a TypeError: it sends no
response of its own, neither 400 nor 200, and leaves the registry unchanged. -/
theorem setup_without_option_throws (emoji : String) (env : Env) (githubConfigs : Registry)
    (body data : JSON) (name : String)
    (htype : getProp body "type" = some (.num 2))
    (hdata : getProp body "data" = some data)
    (hname : getProp data "name" = some (.str "github-setup"))
    (hrequired : name = "push_role" ∨ name = "pr_role" ∨ name = "repo")
    (hlacks : ∀ options, getProp data "options" = some (.arr options) →
      lacksOption options name) :
    interactions emoji env githubConfigs body = (.threw, githubConfigs) := by
  rw [interactions_setup emoji env githubConfigs body data htype hdata hname]
  have hnone := optionValue_lacks data name hlacks
  unfold githubSetup
  dsimp only
  rcases hrequired with e | e | e
  · subst e
    simp [hnone]
  · subst e
    cases optionValue data "push_role" <;> simp [hnone]
  · subst e
    cases optionValue data "push_role" <;> cases optionValue data "pr_role" <;> simp [hnone]

/-- Claim C6, amended, on an invocation that lacks `pr_role`: the handler throws and the
registry still holds the rule of channel 999 only. -/
theorem setup_without_option_throws_witness :
    interactions "👋" noSecret acmeRegistry
        (.obj [("type", .num 2), ("channel_id", .str "1100000000000000001"),
          ("data", .obj [("name", .str "github-setup"),
            ("options", .arr [commandOption "push_role" 8 "111",
              commandOption "repo" 3 "acme/widgets"])])])
      = (.threw, acmeRegistry) :=
  setup_without_option_throws "👋" noSecret acmeRegistry _ _ "pr_role" rfl rfl rfl
    (Or.inr (Or.inl rfl))
    (by
      intro options h
      have e : options = [commandOption "push_role" 8 "111",
          commandOption "repo" 3 "acme/widgets"] := by
        simp [getProp, getOwn] at h
        exact h.symm
      subst e
      intro o ho
      simp at ho
      rcases ho with e | e <;> subst e <;> decide)

/-! ### C7: every accepted request is answered 200 -/

/-- Claim C7 fails as stated.  (1) A `push` event for a configured repository whose `ref`
is the number 5 makes the handler raise a TypeError (`payload.ref.replace` is not a
function).  (2) A `pull_request` event whose `action` is an object with a property named
`toString` makes the template literal raise a TypeError.  In both runs no response is
sent by the handler. -/
theorem push_with_numeric_ref_throws :
    (githubWebhook true noSecret acmeRegistry
        ⟨none, some "push", acmePush (.num 5)⟩).1 = .threw ∧
      (githubWebhook true noSecret acmeRegistry
        ⟨none, some "pull_request",
          .obj [("repository", .obj [("full_name", .str "acme/widgets")]),
            ("action", .obj [("toString", .null)])]⟩).1 = .threw := by
  decide

/-- Claim C7, amended.  Every request that passes or skips signature verification is
answered with HTTP 200 and the text `OK` or `No config for this repo`, without a TypeError
and with the registry unchanged, for every value of the event header, whether or not a
rule matches and whether the Discord delivery succeeds or fails, provided that the body
is not `null` (`express.json()` yields an object or an array), that its `ref` is missing,
`null` or a string, that no object in it has a property named `toString`, and that the
role ids stored in the registry contain no such object either.  Any of the fields read by the handler may be
missing. -/
theorem accepted_request_gets_200 (discordOk : Bool) (env : Env) (githubConfigs : Registry)
    (req : WebhookRequest)
    (hverified : signatureRejected env req = false)
    (hbody : req.body ≠ .null)
    (href : getProp req.body "ref" = none ∨ getProp req.body "ref" = some .null ∨
      ∃ s, getProp req.body "ref" = some (.str s))
    (hplain : plain req.body = true)
    (hrules : ∀ rule ∈ objectValues githubConfigs,
      plainValue rule.pushRoleId = true ∧ plainValue rule.prRoleId = true) :
    ∃ text sent, (text = "OK" ∨ text = "No config for this repo") ∧
      githubWebhook discordOk env githubConfigs req = (.responded 200 text sent, githubConfigs) := by
  rw [githubWebhook_of_accepted discordOk env githubConfigs req hverified]
  split
  · rename_i e
    exact absurd e hbody
  · split
    · exact ⟨_, _, Or.inr rfl, rfl⟩
    · rename_i config hfind
      have hmem := (findConfig_some _ _ _ hfind).1
      have hrepo : plainValue (optChain (getProp req.body "repository") "full_name") = true :=
        optChain_plain _ _ (getProp_plain _ _ hplain)
      obtain ⟨message, hm⟩ : ∃ message, buildMessage req.event config
          (optChain (getProp req.body "repository") "full_name") req.body = some message := by
        unfold buildMessage
        split_ifs
        · exact pushMessage_some config _ _ href hplain hrepo (hrules config hmem).1
        · exact pullRequestMessage_some config _ _ hplain hrepo (hrules config hmem).2
        · exact ⟨_, rfl⟩
      obtain ⟨sent, hsent⟩ := deliver_ok discordOk config message
      rw [hm]
      exact ⟨_, sent, Or.inl rfl, by simp only [hsent]⟩

/-- Claim C7, amended, on a `pull_request` event that carries nothing but the repository
name, with a failing Discord delivery. -/
theorem accepted_request_gets_200_witness :
    ∃ text sent, (text = "OK" ∨ text = "No config for this repo") ∧
      githubWebhook false noSecret acmeRegistry
          ⟨none, some "pull_request",
            .obj [("repository", .obj [("full_name", .str "acme/widgets")])]⟩ =
        (.responded 200 text sent, acmeRegistry) :=
  accepted_request_gets_200 false noSecret acmeRegistry _ rfl (by simp) (Or.inl rfl) rfl
    (by
      intro rule hrule
      have e : rule = ⟨some (.str "999"), some (.str "111"), some (.str "222"),
          some (.str "acme/widgets")⟩ := by
        have : objectValues acmeRegistry = [⟨some (.str "999"), some (.str "111"),
            some (.str "222"), some (.str "acme/widgets")⟩] := rfl
        rw [this] at hrule
        simpa using hrule
      subst e
      exact ⟨rfl, rfl⟩)

/-! ### C8: the branch of a push -/

/-- Claim C8, evaluated at a failing input.  For the ref `refs/tags/refs/heads/x`, which does
not start with `refs/heads/`, the notification shows the branch `refs/tags/x` and not the
ref unchanged: `replace` removes the first occurrence of `refs/heads/` wherever it lies. -/
theorem branch_of_tag_named_like_a_branch :
    (githubWebhook true noSecret acmeRegistry
      ⟨none, some "push", acmePush (.str "refs/tags/refs/heads/x")⟩).1 =
      .responded 200 "OK" [⟨"channels/999/messages",
        "<@&111> 🚀 **New Push to acme/widgets**\n**Branch:** refs/tags/x\n**By:** ada\n" ++
        "**Commits:** 2\n**Compare:** http://x/compare"⟩] := by
  decide

/-! ### C9: `github-setup` replaces the rule of its channel -/

/-- Claim C9.  Let a `github-setup` invocation arrive from channel `c` with an option list
that is any ordering of the three options `push_role` = `p`, `pr_role` = `q`,
`repo` = `r`, on a registry whose keys are pairwise distinct (as the keys of an object
are).  A channel id is a decimal string; all that is used of it is that it is not the
key `__proto__`.  Then the handler answers
200 with the confirmation text, the registry becomes `githubConfigs[c] = rule` with
`rule = { channelId: c, pushRoleId: p, prRoleId: q, repo: r }` whatever the ordering,
exactly one key equals `c` and it holds `rule`, the rule of every other channel is
unchanged, and if every stored rule's `channelId` was its key before, this still holds. -/
theorem github_setup_upserts (emoji : String) (env : Env) (githubConfigs : Registry)
    (body data oPush oPr oRepo : JSON) (options : List JSON) (c p q r : String)
    (htype : getProp body "type" = some (.num 2))
    (hchannel : getProp body "channel_id" = some (.str c))
    (hkey : c ≠ "__proto__")
    (hdata : getProp body "data" = some data)
    (hname : getProp data "name" = some (.str "github-setup"))
    (hoptions : getProp data "options" = some (.arr options))
    (hperm : options.Perm [oPush, oPr, oRepo])
    (hpush : getProp oPush "name" = some (.str "push_role") ∧
      getProp oPush "value" = some (.str p))
    (hpr : getProp oPr "name" = some (.str "pr_role") ∧ getProp oPr "value" = some (.str q))
    (hrepo : getProp oRepo "name" = some (.str "repo") ∧ getProp oRepo "value" = some (.str r))
    (hkeys : (objectKeys githubConfigs).Nodup) :
    (interactions emoji env githubConfigs body).1 =
        .sent 200 (.obj [("type", .num 4), ("data", .obj [("content", .str
          ("✅ GitHub notifications configured!\n" ++
            "**Repository:** " ++ r ++ "\n" ++
            "**Push notifications:** <@&" ++ p ++ ">\n" ++
            "**PR notifications:** <@&" ++ q ++ ">\n\n" ++
            "**Next step:** Set up a webhook in your GitHub repo pointing to:\n" ++
            "`" ++ webhookUrl env ++ "`\n" ++
            "Select events: `Pushes` and `Pull requests`")), ("flags", .num 64)])]) ∧
      (interactions emoji env githubConfigs body).2 =
        setOwn githubConfigs c ⟨some (.str c), some (.str p), some (.str q), some (.str r)⟩ ∧
      getOwn (interactions emoji env githubConfigs body).2 c =
        some ⟨some (.str c), some (.str p), some (.str q), some (.str r)⟩ ∧
      (objectKeys (interactions emoji env githubConfigs body).2).count c = 1 ∧
      (∀ other, other ≠ c →
        getOwn (interactions emoji env githubConfigs body).2 other = getOwn githubConfigs other) ∧
      (KeyedByChannel githubConfigs →
        KeyedByChannel (interactions emoji env githubConfigs body).2) := by
  have hP : optionValue data "push_role" = some (some (.str p)) :=
    optionValue_of_perm data oPush oPr oRepo options _ _ _ _ hoptions hperm hpush.1 hpr.1 hrepo.1
      (by decide) (by decide) hpush.2
  have hQ : optionValue data "pr_role" = some (some (.str q)) :=
    optionValue_of_perm data oPr oPush oRepo options _ _ _ _ hoptions
      (hperm.trans (List.Perm.swap oPr oPush [oRepo])) hpr.1 hpush.1 hrepo.1
      (by decide) (by decide) hpr.2
  have hR : optionValue data "repo" = some (some (.str r)) :=
    optionValue_of_perm data oRepo oPush oPr options _ _ _ _ hoptions
      (hperm.trans (by
        have h1 : [oPush, oPr, oRepo].Perm (oPush :: [oRepo, oPr]) :=
          List.Perm.cons oPush (List.Perm.swap oRepo oPr [])
        exact h1.trans (List.Perm.swap oRepo oPush [oPr]))) hrepo.1 hpush.1 hpr.1
      (by decide) (by decide) hrepo.2
  have hrun : interactions emoji env githubConfigs body =
      (.sent 200 (.obj [("type", .num 4), ("data", .obj [("content", .str
          ("✅ GitHub notifications configured!\n" ++
            "**Repository:** " ++ r ++ "\n" ++
            "**Push notifications:** <@&" ++ p ++ ">\n" ++
            "**PR notifications:** <@&" ++ q ++ ">\n\n" ++
            "**Next step:** Set up a webhook in your GitHub repo pointing to:\n" ++
            "`" ++ webhookUrl env ++ "`\n" ++
            "Select events: `Pushes` and `Pull requests`")), ("flags", .num 64)])]),
        setOwn githubConfigs c ⟨some (.str c), some (.str p), some (.str q), some (.str r)⟩) := by
    rw [interactions_setup emoji env githubConfigs body data htype hdata hname]
    simp [githubSetup, hP, hQ, hR, hchannel, toStr_str, setupContent, assignConfig, hkey]
  rw [hrun]
  refine ⟨rfl, rfl, getOwn_setOwn_self _ _ _, ?_, ?_, ?_⟩
  · have hnd := nodup_keys_setOwn githubConfigs c
      (⟨some (.str c), some (.str p), some (.str q), some (.str r)⟩ : Rule) hkeys
    have hmem : c ∈ objectKeys (setOwn githubConfigs c
        (⟨some (.str c), some (.str p), some (.str q), some (.str r)⟩ : Rule)) := by
      exact (hasOwn_iff_mem_keys _ _).mp (hasOwn_of_getOwn _ _ _ (getOwn_setOwn_self _ _ _))
    exact List.count_eq_one_of_mem hnd hmem
  · intro other hne
    exact getOwn_setOwn_other _ _ _ _ hne
  · intro hinv pr hmem
    rcases mem_setOwn _ _ _ _ hmem with h | h
    · subst h; rfl
    · exact hinv pr h

/-- Claim C9 on the registry that holds a rule for channel 999: an invocation from channel
999 with the options in the order `repo`, `pr_role`, `push_role` replaces that rule. -/
theorem github_setup_upserts_witness :
    getOwn (interactions "👋" noSecret acmeRegistry
        (.obj [("type", .num 2), ("channel_id", .str "999"),
          ("data", .obj [("name", .str "github-setup"),
            ("options", .arr [commandOption "repo" 3 "acme/gadgets",
              commandOption "pr_role" 8 "888", commandOption "push_role" 8 "777"])])])).2 "999" =
        some ⟨some (.str "999"), some (.str "777"), some (.str "888"),
          some (.str "acme/gadgets")⟩ ∧
      (objectKeys (interactions "👋" noSecret acmeRegistry
        (.obj [("type", .num 2), ("channel_id", .str "999"),
          ("data", .obj [("name", .str "github-setup"),
            ("options", .arr [commandOption "repo" 3 "acme/gadgets",
              commandOption "pr_role" 8 "888", commandOption "push_role" 8 "777"])])])).2).count
        "999" = 1 :=
  have h := github_setup_upserts "👋" noSecret acmeRegistry
    (.obj [("type", .num 2), ("channel_id", .str "999"),
      ("data", .obj [("name", .str "github-setup"),
        ("options", .arr [commandOption "repo" 3 "acme/gadgets",
          commandOption "pr_role" 8 "888", commandOption "push_role" 8 "777"])])])
    (.obj [("name", .str "github-setup"),
      ("options", .arr [commandOption "repo" 3 "acme/gadgets",
        commandOption "pr_role" 8 "888", commandOption "push_role" 8 "777"])])
    (commandOption "push_role" 8 "777") (commandOption "pr_role" 8 "888")
    (commandOption "repo" 3 "acme/gadgets")
    [commandOption "repo" 3 "acme/gadgets", commandOption "pr_role" 8 "888",
      commandOption "push_role" 8 "777"]
    "999" "777" "888" "acme/gadgets" rfl rfl (by decide) rfl rfl rfl
    (((List.Perm.swap _ _ _).trans (List.Perm.cons _ (List.Perm.swap _ _ _))).trans
      (List.Perm.swap _ _ _))
    ⟨rfl, rfl⟩ ⟨rfl, rfl⟩ ⟨rfl, rfl⟩ (by decide)
  ⟨h.2.2.1, h.2.2.2.1⟩

/-! ### C10: events of an unconfigured repository -/

end DiscordForom
